import Mathlib

/-
Verification of the diamond-classification pipeline: a shallow embedding of
the orientation decision rule, shape categorization, mask merging, nested
region removal, symmetry measurement cores and the pickup grader, together
with theorems settling the specified properties.

Conventions of the embedding:
* Python floats are modelled as exact rationals or reals; `np.sqrt` becomes
  `Real.sqrt`.  Where NumPy produces NaN (0/0 in `np.corrcoef`) the embedded
  value is `Option.none`.
* Image-library calls (cv2 rotation, contour extraction, pointPolygonTest)
  are external collaborators; their outputs enter the embedded functions as
  arguments (paired valid-pixel lists, contour tags with a point-in-polygon
  oracle), exactly at the boundary where the analysed code consumes them.
-/

/-! ## Orientation decision rule
Embedding of PureGeometricClassifier._make_decision
(src/classification/pure_geometric_classifier.py, lines 497-549).
Orientation labels are the strings the source uses. -/

/-- Thresholds of PureGeometricClassifier.__init__ with its default values. -/
structure DecisionConfig where
  outlineSymThreshold : ℚ := 0.70
  reflectionSymThreshold : ℚ := 0.65
  spotSymThreshold : ℚ := 0.60
  aspectRatioThreshold : ℚ := 0.58

/-- PureGeometricClassifier._make_decision translated clause by clause:
the strong-table test, the weak-count accumulator, the weighted primary
score, the spot tie-break near the 0.60 boundary and the final comparison. -/
def makeDecision (cfg : DecisionConfig) (outlineSym reflectionSym : ℚ)
    (hasSpot : Bool) (spotSym aspectRatio : ℚ) : String × ℚ :=
  if outlineSym ≥ cfg.outlineSymThreshold ∧
      reflectionSym ≥ cfg.reflectionSymThreshold ∧
      aspectRatio ≥ cfg.aspectRatioThreshold then
    ("table", (outlineSym + reflectionSym + aspectRatio) / 3)
  else
    let weakCount : ℕ :=
      (if outlineSym < 0.60 then 1 else 0) +
      (if reflectionSym < 0.55 then 1 else 0) +
      (if aspectRatio < 0.52 then 1 else 0)
    if weakCount ≥ 2 then
      ("tilted", 1 - (outlineSym + reflectionSym + aspectRatio) / 3)
    else
      let primaryScore := 0.25 * outlineSym + 0.35 * reflectionSym + 0.40 * aspectRatio
      let finalScore :=
        if |primaryScore - 0.60| < 0.05 then
          if hasSpot ∧ spotSym ≥ cfg.spotSymThreshold then
            0.7 * primaryScore + 0.3 * spotSym
          else primaryScore
        else primaryScore
      if finalScore ≥ 0.60 then ("table", finalScore)
      else ("tilted", 1 - finalScore)

/-- Modelled from the spec: the documented three-rule fallback policy of
section 4.3, written from the spec text (rule 1 strong table, rule 2 counting
the weak metrics, rule 3 weighted score with spot blending), to be compared
against the code translation `makeDecision`. -/
def specRuleDecision (outline reflection aspect : ℚ)
    (hasSpot : Bool) (spotSym : ℚ) : String × ℚ :=
  if outline ≥ 0.70 ∧ reflection ≥ 0.65 ∧ aspect ≥ 0.58 then
    ("table", (outline + reflection + aspect) / 3)
  else if 2 ≤ ([decide (outline < 0.60), decide (reflection < 0.55),
                decide (aspect < 0.52)].count true) then
    ("tilted", 1 - (outline + reflection + aspect) / 3)
  else
    let score := 0.25 * outline + 0.35 * reflection + 0.40 * aspect
    let final :=
      if |score - 0.60| < 0.05 ∧ (hasSpot ∧ spotSym ≥ 0.60) then
        0.7 * score + 0.3 * spotSym
      else score
    if final ≥ 0.60 then ("table", final) else ("tilted", 1 - final)

/-! ## Shape categorization
Embedding of the detected_type assignment in SAMDiamondDetector.detect
(src/preprocessing/sam_detector.py, lines 220-231). -/

/-- Aspect ratio from fitted-ellipse axes: minor/major, 0 when the major
axis is degenerate (sam_detector.py line 224, with major = max axes and
minor = min axes from lines 222-223). -/
def aspectRatioOfAxes (axes : ℚ × ℚ) : ℚ :=
  let majorAxis := max axes.1 axes.2
  let minorAxis := min axes.1 axes.2
  if majorAxis > 0 then minorAxis / majorAxis else 0

/-- The detected_type decision of sam_detector.py lines 228-231. -/
def detectedTypeOf (aspectRatio : ℚ) : String :=
  if aspectRatio > 0.85 then "round" else "other"

/-- C4: for every 4-tuple of inputs, the rule-based fallback decision equals
the documented three-rule policy of the spec: strong-table rule, two-weak
rule, then the weighted score with the qualifying-spot blend near 0.60. -/
theorem makeDecision_eq_specRule (o r a ss : ℚ) (hs : Bool) :
    makeDecision {} o r hs ss a = specRuleDecision o r a hs ss := by
  have e1 : ({} : DecisionConfig).outlineSymThreshold = 0.70 := rfl
  have e2 : ({} : DecisionConfig).reflectionSymThreshold = 0.65 := rfl
  have e3 : ({} : DecisionConfig).spotSymThreshold = 0.60 := rfl
  have e4 : ({} : DecisionConfig).aspectRatioThreshold = 0.58 := rfl
  unfold makeDecision specRuleDecision
  rw [e1, e2, e3, e4]
  dsimp only
  by_cases hA : o ≥ 0.70 ∧ r ≥ 0.65 ∧ a ≥ 0.58
  · rw [if_pos hA, if_pos hA]
  · rw [if_neg hA, if_neg hA]
    have hcnt : ((if o < 0.60 then (1 : ℕ) else 0) + (if r < 0.55 then 1 else 0) +
        (if a < 0.52 then 1 else 0) ≥ 2) ↔
        (2 ≤ [decide (o < 0.60), decide (r < 0.55), decide (a < 0.52)].count true) := by
      by_cases h1 : o < 0.60 <;> by_cases h2 : r < 0.55 <;> by_cases h3 : a < 0.52 <;>
        simp [h1, h2, h3]
    by_cases hW : ((if o < 0.60 then (1 : ℕ) else 0) + (if r < 0.55 then 1 else 0) +
        (if a < 0.52 then 1 else 0) ≥ 2)
    · rw [if_pos hW, if_pos (hcnt.mp hW)]
    · rw [if_neg hW, if_neg (fun hc => hW (hcnt.mpr hc))]
      split_ifs <;> first | rfl | tauto

/-- C10: the shape category is Round exactly when the fitted ellipse's
minor/major axis ratio exceeds 0.85 (with a nondegenerate major axis),
Other otherwise. -/
theorem detectedType_round_iff (axes : ℚ × ℚ) (h : 0 < max axes.1 axes.2) :
    detectedTypeOf (aspectRatioOfAxes axes) = "round" ↔
      min axes.1 axes.2 / max axes.1 axes.2 > 0.85 := by
  unfold detectedTypeOf aspectRatioOfAxes
  rw [if_pos h]
  constructor
  · intro hr
    by_contra hc
    rw [if_neg hc] at hr
    exact absurd hr (by decide)
  · intro hgt
    rw [if_pos hgt]

/-- Witness for C10: axes (10, 9) give ratio 0.9 > 0.85, categorized Round. -/
theorem detectedType_round_iff_witness :
    (0 : ℚ) < max (10 : ℚ) 9 ∧
      (detectedTypeOf (aspectRatioOfAxes ((10 : ℚ), (9 : ℚ))) = "round" ↔
        min (10 : ℚ) 9 / max (10 : ℚ) 9 > 0.85) :=
  ⟨by norm_num, detectedType_round_iff ((10 : ℚ), (9 : ℚ)) (by norm_num)⟩

/-! ## Mask merging
Embedding of SAMDiamondDetector._merge_masks
(src/preprocessing/sam_detector.py, lines 111-156).  The function first
binarizes each probability mask at 0.5 and all later work (areas,
intersections, unions, the output) happens on those binary masks, so a mask
is modelled as its set of foreground pixels (a Finset of pixel indices). -/

/-- The should_merge condition of _merge_masks lines 138-146 between the
currently accumulating mask a and an unused candidate b: containment above
one half, IoU above the configured threshold with size disparity above 1.5,
or IoU above 0.4 outright.  Division guards mirror the source's
"if area > 0 else" expressions. -/
def shouldMerge (thr : ℚ) (a b : Finset ℕ) : Bool :=
  let inter : ℚ := ((a ∩ b).card : ℚ)
  let iou : ℚ := if (0 : ℚ) < ((a ∪ b).card : ℚ) then inter / ((a ∪ b).card : ℚ) else 0
  let containmentJ : ℚ := if (0 : ℚ) < ((b.card : ℚ)) then inter / (b.card : ℚ) else 0
  let containmentCur : ℚ := if (0 : ℚ) < ((a.card : ℚ)) then inter / (a.card : ℚ) else 0
  let maxContainment := max containmentJ containmentCur
  let sizeDisparity : ℚ :=
    if (0 : ℚ) < min ((a.card : ℚ)) ((b.card : ℚ)) then
      max ((a.card : ℚ)) ((b.card : ℚ)) / min ((a.card : ℚ)) ((b.card : ℚ))
    else 1
  decide (maxContainment > 0.5) ||
    (decide (iou > thr) && decide (sizeDisparity > 1.5)) || decide (iou > 0.4)

/-- One pass of the inner for-loop of _merge_masks (lines 131-153): scan the
unused masks in order, union every matching one into the current mask,
return the grown mask, the masks left unused, and whether anything merged. -/
def scanOnce (thr : ℚ) : Finset ℕ → List (Finset ℕ) → Finset ℕ × List (Finset ℕ) × Bool
  | current, [] => (current, [], false)
  | current, m :: rest =>
    if shouldMerge thr current m then
      let p := scanOnce thr (current ∪ m) rest
      (p.1, p.2.1, true)
    else
      let p := scanOnce thr current rest
      (p.1, m :: p.2.1, p.2.2)

/-- The while-changed loop of _merge_masks (lines 128-153), fueled: every
scan that reports a change absorbs at least one mask, so fuel equal to the
number of remaining masks reaches the loop's fixed point. -/
def absorbLoop (thr : ℚ) : ℕ → Finset ℕ → List (Finset ℕ) → Finset ℕ × List (Finset ℕ)
  | 0, current, rem => (current, rem)
  | fuel + 1, current, rem =>
    let p := scanOnce thr current rem
    if p.2.2 then absorbLoop thr fuel p.1 p.2.1 else (p.1, p.2.1)

/-- The outer for-loop of _merge_masks (lines 120-154), fueled: each
iteration finalizes one merged group seeded from the first unused mask, so
fuel equal to the list length suffices. -/
def mergeMasksAux (thr : ℚ) : ℕ → List (Finset ℕ) → List (Finset ℕ)
  | 0, l => l
  | _, [] => []
  | fuel + 1, m :: rest =>
    let p := absorbLoop thr rest.length m rest
    p.1 :: mergeMasksAux thr fuel p.2

/-- SAMDiamondDetector._merge_masks: identity when merging is disabled or
the list is empty (line 113), otherwise the greedy grouping pass. -/
def mergeMasks (mergeOverlapping : Bool) (thr : ℚ) (masks : List (Finset ℕ)) :
    List (Finset ℕ) :=
  if mergeOverlapping = false ∨ masks = [] then masks
  else mergeMasksAux thr masks.length masks

/-- First example mask for the idempotence analysis: pixels 1..10. -/
def maskA : Finset ℕ := Finset.Icc 1 10

/-- Second example mask: pixels 1..5 and 11..25. -/
def maskB : Finset ℕ := Finset.Icc 1 5 ∪ Finset.Icc 11 25

/-- Third example mask: pixels 6..10 and 11..25. -/
def maskC : Finset ℕ := Finset.Icc 6 10 ∪ Finset.Icc 11 25

/-- Counterexample to C7 as stated: with the default overlap threshold 0.25,
the merge pass on [maskA, maskB, maskC] leaves maskA alone while maskB and
maskC fuse into pixels 1..25; that fused group now contains maskA entirely,
so a second application of the pass merges further.  The pass is therefore
not idempotent: there is no outer fixed-point iteration over finalized
groups in the source. -/
theorem mergeMasks_not_idempotent :
    mergeMasks true 0.25 (mergeMasks true 0.25 [maskA, maskB, maskC]) ≠
      mergeMasks true 0.25 [maskA, maskB, maskC] := by
  have sAB : shouldMerge 0.25 maskA maskB = false := by
    have h1 : (maskA ∩ maskB).card = 5 := by decide
    have h2 : (maskA ∪ maskB).card = 25 := by decide
    have h3 : maskA.card = 10 := by decide
    have h4 : maskB.card = 20 := by decide
    simp only [shouldMerge, h1, h2, h3, h4]; norm_num
  have sAC : shouldMerge 0.25 maskA maskC = false := by
    have h1 : (maskA ∩ maskC).card = 5 := by decide
    have h2 : (maskA ∪ maskC).card = 25 := by decide
    have h3 : maskA.card = 10 := by decide
    have h4 : maskC.card = 20 := by decide
    simp only [shouldMerge, h1, h2, h3, h4]; norm_num
  have sBC : shouldMerge 0.25 maskB maskC = true := by
    have h1 : (maskB ∩ maskC).card = 15 := by decide
    have h2 : (maskB ∪ maskC).card = 25 := by decide
    have h3 : maskB.card = 20 := by decide
    have h4 : maskC.card = 20 := by decide
    simp only [shouldMerge, h1, h2, h3, h4]; norm_num
  have sABC : shouldMerge 0.25 maskA (maskB ∪ maskC) = true := by
    have h1 : (maskA ∩ (maskB ∪ maskC)).card = 10 := by decide
    have h2 : (maskA ∪ (maskB ∪ maskC)).card = 25 := by decide
    have h3 : maskA.card = 10 := by decide
    have h4 : (maskB ∪ maskC).card = 25 := by decide
    simp only [shouldMerge, h1, h2, h3, h4]; norm_num
  have e1 : mergeMasks true 0.25 [maskA, maskB, maskC] = [maskA, maskB ∪ maskC] := by
    simp only [mergeMasks, mergeMasksAux, absorbLoop, scanOnce, List.length_cons,
      List.length_nil, sAB, sAC, sBC]
    norm_num
    exact List.cons_ne_nil _ _
  have e2 : mergeMasks true 0.25 [maskA, maskB ∪ maskC] = [maskA ∪ (maskB ∪ maskC)] := by
    simp only [mergeMasks, mergeMasksAux, absorbLoop, scanOnce, List.length_cons,
      List.length_nil, sABC]
    norm_num
    exact List.cons_ne_nil _ _
  intro he
  rw [e1, e2] at he
  have hlen := congrArg List.length he
  simp at hlen

/-- C7 amended: the merge pass is idempotent on inputs of at most two masks
(each output group is a fixed point of the inner while-loop, so with at most
one pair no further merge can appear; with three or more masks idempotence
fails as `mergeMasks_not_idempotent` shows). -/
theorem mergeMasks_idempotent_of_length_le_two (flag : Bool) (thr : ℚ)
    (masks : List (Finset ℕ)) (h : masks.length ≤ 2) :
    mergeMasks flag thr (mergeMasks flag thr masks) = mergeMasks flag thr masks := by
  cases flag with
  | false => simp [mergeMasks]
  | true =>
    match masks, h with
    | [], _ => simp [mergeMasks]
    | [a], _ => simp [mergeMasks, mergeMasksAux, absorbLoop]
    | [a, b], _ =>
      by_cases hm : shouldMerge thr a b = true
      · simp [mergeMasks, mergeMasksAux, absorbLoop, scanOnce, hm]
      · simp [mergeMasks, mergeMasksAux, absorbLoop, scanOnce, hm]

/-- Witness for the amended C7 theorem at a concrete two-mask input. -/
theorem mergeMasks_idempotent_witness :
    ([Finset.Icc 1 3, Finset.Icc 2 4] : List (Finset ℕ)).length ≤ 2 ∧
      mergeMasks true 0.25 (mergeMasks true 0.25 [Finset.Icc 1 3, Finset.Icc 2 4]) =
        mergeMasks true 0.25 [Finset.Icc 1 3, Finset.Icc 2 4] :=
  ⟨by decide, mergeMasks_idempotent_of_length_le_two true 0.25 _ (by decide)⟩

/-! ## Nested-region removal
Embedding of SAMDiamondDetector._remove_nested_rois
(src/preprocessing/sam_detector.py, lines 265-305).  Contour geometry lives
in cv2: each region carries a tag naming its contour, and the collaborator
cv2.pointPolygonTest enters as an oracle argument ppt mapping a point and a
contour tag to the signed inside-measure (nonnegative means inside or on
the boundary). -/

/-- Bounding box (x, y, w, h) of a detected region. -/
structure BBox where
  x : ℚ
  y : ℚ
  w : ℚ
  h : ℚ
deriving DecidableEq, Inhabited

/-- The fields of DiamondROI that _remove_nested_rois reads. -/
structure NROI where
  contour : ℕ
  boundingBox : BBox
  center : ℚ × ℚ
  area : ℚ
  id : ℕ
deriving DecidableEq, Inhabited

/-- The bbox_contained test of sam_detector.py lines 290-294. -/
def bboxContained (inner outer : BBox) : Bool :=
  decide (inner.x ≥ outer.x) && decide (inner.y ≥ outer.y) &&
    decide (inner.x + inner.w ≤ outer.x + outer.w) &&
    decide (inner.y + inner.h ≤ outer.y + outer.h)

/-- The removal conditions of the inner loop (lines 280-296): strictly
smaller area, centroid inside the other contour (pointPolygonTest ≥ 0) and
bounding box fully contained. -/
def isNestedIn (ppt : ℚ × ℚ → ℕ → ℚ) (a b : NROI) : Bool :=
  decide (a.area < b.area) && decide (ppt a.center b.contour ≥ 0) &&
    bboxContained a.boundingBox b.boundingBox

/-- The inner for-j scan of lines 276-298: does any region j, distinct from
i and not already marked removed, contain region i? -/
def hasContainer (ppt : ℚ × ℚ → ℕ → ℚ) (rois : List NROI) (i : ℕ)
    (rem : List ℕ) : Bool :=
  (List.range rois.length).any fun j =>
    decide (j ≠ i) && decide (j ∉ rem) &&
      isNestedIn ppt (rois.getD i default) (rois.getD j default)

/-- The outer for-i loop of lines 272-298 accumulating the to_remove set:
indices already removed are skipped both as candidates (line 273) and as
containers (line 277, via hasContainer). -/
def toRemoveAux (ppt : ℚ × ℚ → ℕ → ℚ) (rois : List NROI) :
    List ℕ → List ℕ → List ℕ
  | [], rem => rem
  | i :: rest, rem =>
    if i ∈ rem then toRemoveAux ppt rois rest rem
    else if hasContainer ppt rois i rem then toRemoveAux ppt rois rest (rem ++ [i])
    else toRemoveAux ppt rois rest rem

/-- The complete to_remove computation over all indices. -/
def toRemove (ppt : ℚ × ℚ → ℕ → ℚ) (rois : List NROI) : List ℕ :=
  toRemoveAux ppt rois (List.range rois.length) []

/-- SAMDiamondDetector._remove_nested_rois: early return for at most one
region (line 267), otherwise filter out the removed indices (line 300) and
reassign dense ids in order (lines 302-303). -/
def removeNestedROIs (ppt : ℚ × ℚ → ℕ → ℚ) (rois : List NROI) : List NROI :=
  if rois.length ≤ 1 then rois
  else
    let rem := toRemove ppt rois
    let filtered := (rois.enum.filter fun p => p.1 ∉ rem).map Prod.snd
    filtered.enum.map fun p => { p.2 with id := p.1 }

/-- Point-in-polygon oracle for the concrete nested-removal scenario.
Contour 12 is an L-shaped hexagon with vertices (0,0), (100,0), (100,100),
(60,100), (60,40), (0,40); contour 10 is the rectangle [40,90] x [20,80];
contour 11 is the square [42,48] x [57,63].  The only queries the removal
pass makes are the two listed positives and the one negative: (65,50) lies
in the L's right column, while (45,60) lies in the rectangle's overhang
outside the L. -/
def pptEx (p : ℚ × ℚ) (c : ℕ) : ℚ :=
  if c = 12 ∧ p = (65, 50) then 1
  else if c = 10 ∧ p = (45, 60) then 1
  else -1

/-- Rectangle region nested in the L-shape: detection index 0. -/
def roiB8 : NROI := ⟨10, ⟨40, 20, 50, 60⟩, (65, 50), 30, 0⟩

/-- Small square region nested in the rectangle: detection index 1. -/
def roiA8 : NROI := ⟨11, ⟨42, 57, 6, 6⟩, (45, 60), 1, 1⟩

/-- The large L-shaped region: detection index 2. -/
def roiC8 : NROI := ⟨12, ⟨0, 0, 100, 100⟩, (5, 2), 64, 2⟩

/-- The three regions in detection order for the removal scenario. -/
def lEx : List NROI := [roiB8, roiA8, roiC8]

/-- Region roiB8 is nested in roiC8 per the removal conditions. -/
lemma isNested_B_C : isNestedIn pptEx roiB8 roiC8 = true := by
  simp only [isNestedIn, bboxContained, pptEx, roiB8, roiC8]; norm_num

/-- Region roiA8's centroid lies outside roiC8, so it is not nested there. -/
lemma isNested_A_C : isNestedIn pptEx roiA8 roiC8 = false := by
  simp only [isNestedIn, bboxContained, pptEx, roiA8, roiC8]; norm_num

/-- Region roiA8 is nested in roiB8 per all three removal conditions. -/
lemma isNested_A_B : isNestedIn pptEx roiA8 roiB8 = true := by
  simp only [isNestedIn, bboxContained, pptEx, roiB8, roiA8]; norm_num

/-- The to_remove pass on the concrete scenario marks only index 0 (roiB8):
index 0 is removed because roiB8 nests in roiC8; index 1 (roiA8) finds no
container because index 0 is already removed and roiC8 fails the centroid
test; index 2 finds none. -/
lemma toRemove_lEx : toRemove pptEx lEx = [0] := by
  have hc0 : hasContainer pptEx lEx 0 [] = true := by
    simp only [hasContainer, show lEx.length = 3 from rfl,
      show List.range 3 = [0, 1, 2] from rfl, List.any_cons, List.any_nil,
      show lEx.getD 0 default = roiB8 from rfl, show lEx.getD 2 default = roiC8 from rfl,
      isNested_B_C]
    simp
  have hc1 : hasContainer pptEx lEx 1 [0] = false := by
    have iBA : isNestedIn pptEx roiA8 roiB8 = true := isNested_A_B
    simp only [hasContainer, show lEx.length = 3 from rfl,
      show List.range 3 = [0, 1, 2] from rfl, List.any_cons, List.any_nil,
      show lEx.getD 1 default = roiA8 from rfl, show lEx.getD 0 default = roiB8 from rfl,
      show lEx.getD 2 default = roiC8 from rfl, isNested_A_C, iBA]
    simp
  have hc2 : hasContainer pptEx lEx 2 [0] = false := by
    have iCB : isNestedIn pptEx roiC8 roiB8 = false := by
      simp only [isNestedIn, bboxContained, pptEx, roiC8, roiB8]; norm_num
    have iCA : isNestedIn pptEx roiC8 roiA8 = false := by
      simp only [isNestedIn, bboxContained, pptEx, roiC8, roiA8]; norm_num
    simp only [hasContainer, show lEx.length = 3 from rfl,
      show List.range 3 = [0, 1, 2] from rfl, List.any_cons, List.any_nil,
      show lEx.getD 2 default = roiC8 from rfl, show lEx.getD 0 default = roiB8 from rfl,
      show lEx.getD 1 default = roiA8 from rfl, iCB, iCA]
    simp
  simp only [toRemove, show lEx.length = 3 from rfl,
    show List.range 3 = [0, 1, 2] from rfl, toRemoveAux, hc0, hc1, hc2]
  simp [toRemoveAux, hc1, hc2]

/-- Counterexample to C8 as stated: region roiA8 satisfies all three
nesting conditions inside the strictly larger roiB8, yet it survives the
removal pass, because roiB8 is itself removed first (nested in roiC8) and
removed regions are skipped as containers, while roiA8's centroid falls
outside roiC8.  The survivors are roiA8 and roiC8 (identified by their
centers in the output). -/
theorem removeNested_claim_false :
    isNestedIn pptEx roiA8 roiB8 = true ∧
      (removeNestedROIs pptEx lEx).map NROI.center = [(45, 60), (5, 2)] := by
  refine ⟨isNested_A_B, ?_⟩
  simp only [removeNestedROIs, show lEx.length = 3 from rfl, toRemove_lEx]
  norm_num [lEx, List.enum, List.enumFrom, roiB8, roiA8, roiC8]

/-- The removal marks accumulated by toRemoveAux only grow: whatever is in
rem stays in the result. -/
lemma toRemoveAux_subset (ppt : ℚ × ℚ → ℕ → ℚ) (rois : List NROI) :
    ∀ (idxs rem : List ℕ), rem ⊆ toRemoveAux ppt rois idxs rem := by
  intro idxs
  induction idxs with
  | nil => intro rem; simp [toRemoveAux]
  | cons i rest ih =>
    intro rem
    simp only [toRemoveAux]
    split_ifs with h1 h2
    · exact ih rem
    · exact (List.subset_append_left rem [i]).trans (ih (rem ++ [i]))
    · exact ih rem

/-- If region ia nests in region ib and ib is never marked for removal,
then ia is marked when its index comes up: at that point ib is still an
admissible container, so the hasContainer scan succeeds. -/
lemma toRemoveAux_mem (ppt : ℚ × ℚ → ℕ → ℚ) (rois : List NROI) (ia ib : ℕ)
    (hnest : isNestedIn ppt (rois.getD ia default) (rois.getD ib default) = true)
    (hib : ib < rois.length) (hne : ib ≠ ia) :
    ∀ (idxs rem : List ℕ), ia ∈ idxs →
      ib ∉ toRemoveAux ppt rois idxs rem → ia ∈ toRemoveAux ppt rois idxs rem := by
  intro idxs
  induction idxs with
  | nil => intro rem hmem; exact absurd hmem (List.not_mem_nil ia)
  | cons i rest ih =>
    intro rem hmem hnib
    by_cases h1 : i ∈ rem
    · simp only [toRemoveAux, if_pos h1] at hnib ⊢
      rcases List.mem_cons.mp hmem with heq | htail
      · exact toRemoveAux_subset ppt rois rest rem (heq ▸ h1)
      · exact ih rem htail hnib
    · by_cases h2 : hasContainer ppt rois i rem = true
      · simp only [toRemoveAux, if_neg h1, if_pos h2] at hnib ⊢
        rcases List.mem_cons.mp hmem with heq | htail
        · subst heq
          exact toRemoveAux_subset ppt rois rest (rem ++ [ia])
            (List.mem_append_right rem (List.mem_singleton.mpr rfl))
        · exact ih (rem ++ [i]) htail hnib
      · simp only [toRemoveAux, if_neg h1, if_neg h2] at hnib ⊢
        rcases List.mem_cons.mp hmem with heq | htail
        · exfalso
          apply h2
          subst heq
          refine List.any_eq_true.mpr ⟨ib, List.mem_range.mpr hib, ?_⟩
          have hibrem : ib ∉ rem := fun hc =>
            hnib (toRemoveAux_subset ppt rois rest rem hc)
          rw [List.getD_eq_getElem?_getD, List.getD_eq_getElem?_getD] at hnest
          simp [hne, hibrem, hnest]
        · exact ih rem htail hnib

/-- Mapping the second projection over an enumeration recovers the list. -/
lemma enumFrom_map_snd {α : Type} (n : ℕ) (l : List α) :
    (l.enumFrom n).map Prod.snd = l := by
  induction l generalizing n with
  | nil => rfl
  | cons a t ih => simp only [List.enumFrom, List.map_cons, ih]

/-- Specialization of enumFrom_map_snd to enum. -/
lemma enum_map_snd {α : Type} (l : List α) : l.enum.map Prod.snd = l :=
  enumFrom_map_snd 0 l

/-- After the reindexing map of the removal pass, every output entry's id
equals its position. -/
lemma enum_reindex_id (l : List NROI) :
    ∀ q ∈ (l.enum.map fun p => { p.2 with id := p.1 }).enum, q.2.id = q.1 := by
  intro q hq
  rcases List.mem_iff_getElem.mp hq with ⟨k, hk, hkq⟩
  rw [List.getElem_enum] at hkq
  have hk2 : k < (l.enum.map fun p => { p.2 with id := p.1 }).length := by
    simpa using hk
  rw [List.getElem_map] at hkq
  rw [List.getElem_enum] at hkq
  rw [← hkq]

/-- Reassigning ids by position and then erasing ids is the same as erasing
ids directly. -/
lemma reindex_erase_from (l : List NROI) : ∀ n : ℕ,
    (((l.enumFrom n).map fun p => { p.2 with id := p.1 }).map
      fun x => { x with id := 0 }) = l.map fun x => { x with id := 0 } := by
  induction l with
  | nil => intro n; rfl
  | cons a t ih => intro n; exact congrArg (List.cons _) (ih (n + 1))

/-- Specialization of reindex_erase_from to enum. -/
lemma reindex_erase (m : List NROI) :
    ((m.enum.map fun p => { p.2 with id := p.1 }).map fun x => { x with id := 0 }) =
      m.map fun x => { x with id := 0 } :=
  reindex_erase_from m 0

/-- C8 amended: the removal guarantee holds relative to surviving
containers: if region ia nests in region ib per all three conditions and ib
itself survives the pass, then ia is marked removed (as the counterexample
shows, the guarantee fails when the container is itself removed first).
Moreover surviving regions carry contiguous ids 0..n-1 in order (given the
detector's positional input ids), and modulo id reassignment the output is
a subsequence of the input, preserving relative detection order. -/
theorem removeNested_amended (ppt : ℚ × ℚ → ℕ → ℚ) (rois : List NROI) :
    (∀ ia ib : ℕ, ia < rois.length → ib < rois.length → ia ≠ ib →
      isNestedIn ppt (rois.getD ia default) (rois.getD ib default) = true →
      ib ∉ toRemove ppt rois → ia ∈ toRemove ppt rois) ∧
    ((∀ p ∈ rois.enum, p.2.id = p.1) →
      ∀ q ∈ (removeNestedROIs ppt rois).enum, q.2.id = q.1) ∧
    List.Sublist ((removeNestedROIs ppt rois).map fun x => { x with id := 0 })
      (rois.map fun x => { x with id := 0 }) := by
  refine ⟨?_, ?_, ?_⟩
  · intro ia ib hia hib hne hnest hnr
    unfold toRemove at hnr ⊢
    exact toRemoveAux_mem ppt rois ia ib hnest hib (Ne.symm hne) _ []
      (List.mem_range.mpr hia) hnr
  · intro hids q hq
    by_cases hlen : rois.length ≤ 1
    · unfold removeNestedROIs at hq
      rw [if_pos hlen] at hq
      exact hids q hq
    · unfold removeNestedROIs at hq
      rw [if_neg hlen] at hq
      exact enum_reindex_id _ q hq
  · by_cases hlen : rois.length ≤ 1
    · unfold removeNestedROIs
      rw [if_pos hlen]
    · unfold removeNestedROIs
      rw [if_neg hlen]
      dsimp only
      rw [reindex_erase]
      have hsub : List.Sublist (rois.enum.filter fun p => p.1 ∉ toRemove ppt rois)
          rois.enum := List.filter_sublist _
      have h2 := (hsub.map Prod.snd).map fun x : NROI => { x with id := 0 }
      rw [enum_map_snd] at h2
      exact h2

/-- Witness for the amended C8 theorem: in the concrete scenario, roiB8
(index 0) nests in the surviving roiC8 (index 2), and the theorem concludes
that index 0 is marked removed. -/
theorem removeNested_amended_witness :
    isNestedIn pptEx (lEx.getD 0 default) (lEx.getD 2 default) = true ∧
      (2 : ℕ) ∉ toRemove pptEx lEx ∧ (0 : ℕ) ∈ toRemove pptEx lEx := by
  have h1 : isNestedIn pptEx (lEx.getD 0 default) (lEx.getD 2 default) = true := by
    rw [show lEx.getD 0 default = roiB8 from rfl, show lEx.getD 2 default = roiC8 from rfl]
    exact isNested_B_C
  have h2 : (2 : ℕ) ∉ toRemove pptEx lEx := by rw [toRemove_lEx]; simp
  exact ⟨h1, h2, (removeNested_amended pptEx lEx).1 0 2 (by norm_num [lEx])
    (by norm_num [lEx]) (by norm_num) h1 h2⟩

/-! ## Pickup grader
Embedding of PickupGrader (src/grading/pickup_grader.py).  NumPy floats are
modelled as reals, np.sqrt as Real.sqrt and np.linalg.norm on a 2-vector as
the euclidean distance.  The fields of DiamondROI that the grader reads are
id, center, area, orientation and detected_type; in the embedding every
region carries an orientation string, matching the pipeline where the
classifier has set roi.orientation before grading. -/

/-- Grader configuration: the check_orientation flag and the mm-derived
fixed pixel threshold of PickupGrader.__init__ (min_distance_px, None when
no image width is configured, lines 50-56). -/
structure GraderConfig where
  checkOrientation : Bool := true
  minDistancePx : Option ℝ := none

/-- The min_distance_px computation of __init__ lines 51-53:
px_per_mm = image_width_px / plate_width_mm and
min_distance_px = min_distance_mm * px_per_mm, None when image_width_px is
not provided. -/
noncomputable def mkMinDistancePx (plateWidthMm minDistanceMm : ℝ)
    (imageWidthPx : Option ℝ) : Option ℝ :=
  imageWidthPx.map fun w => minDistanceMm * (w / plateWidthMm)

/-- The fields of DiamondROI read by the grader. -/
structure GROI where
  id : ℕ
  center : ℝ × ℝ
  area : ℝ
  orientation : String
  detectedType : String

/-- radius = np.sqrt(roi.area / np.pi) (pickup_grader.py line 72). -/
noncomputable def radiusOf (roi : GROI) : ℝ :=
  Real.sqrt (roi.area / Real.pi)

/-- PickupGrader._get_safety_threshold (lines 115-140): the fixed pixel
threshold when the mm conversion is configured, otherwise radius for
round table regions and radius/3 for the rest. -/
noncomputable def getSafetyThreshold (cfg : GraderConfig) (roi : GROI) : ℝ :=
  match cfg.minDistancePx with
  | some d => d
  | none =>
    let radius := Real.sqrt (roi.area / Real.pi)
    if roi.detectedType = "round" ∧ roi.orientation = "table" then radius
    else radius / 3

/-- Euclidean distance between two centers
(np.linalg.norm(target_center - other_center), line 170). -/
noncomputable def centerDistance (a b : ℝ × ℝ) : ℝ :=
  Real.sqrt ((a.1 - b.1) ^ 2 + (a.2 - b.2) ^ 2)

/-- Edge-to-edge distance of line 171: center distance minus both radii. -/
noncomputable def edgeDistanceBetween (a b : GROI) : ℝ :=
  centerDistance a.center b.center - radiusOf a - radiusOf b

/-- One iteration of the scan loop of _find_nearest_edge_distance
(lines 160-176): skip the target itself, otherwise update the tracked
minimum (None models the initial float('inf')) and the required threshold
(min of the two individual thresholds) when the edge distance strictly
improves. -/
noncomputable def scanStep (cfg : GraderConfig) (target : GROI)
    (acc : Option ℝ × ℝ) (roi : GROI) : Option ℝ × ℝ :=
  if roi.id = target.id then acc
  else
    let ed := edgeDistanceBetween target roi
    match acc.1 with
    | none =>
      (some ed, min (getSafetyThreshold cfg target) (getSafetyThreshold cfg roi))
    | some m =>
      if ed < m then
        (some ed, min (getSafetyThreshold cfg target) (getSafetyThreshold cfg roi))
      else acc

/-- PickupGrader._find_nearest_edge_distance (lines 142-179): fold the scan
over all regions starting from (inf, target threshold) and replace an
untouched infinite minimum by 0.0 at the end (line 178). -/
noncomputable def findNearestEdgeDistance (cfg : GraderConfig) (target : GROI)
    (allRois : List GROI) : ℝ × ℝ :=
  let r := allRois.foldl (scanStep cfg target) (none, getSafetyThreshold cfg target)
  (r.1.getD 0, r.2)

/-- The grade computation of grade_diamonds lines 92-103: Invalid (-1) below
the safety threshold, otherwise the normalized ramp clipped to [0, 10]. -/
noncomputable def computeGrade (radius safetyThreshold edgeDist : ℝ) : ℝ :=
  if edgeDist < safetyThreshold then -1
  else
    let minValidDistance := safetyThreshold
    let maxDistance := 6 * radius
    let normalized := (edgeDist - minValidDistance) / (maxDistance - minValidDistance)
    min 10 (max 0 (normalized * 10))

/-- The GradedDiamond record of pickup_grader.py lines 10-16; grade = none
models Python None (tilted, not gradable). -/
structure GradedDiamond where
  roi : GROI
  grade : Option ℝ
  nearestDistance : Option ℝ
  radius : ℝ

/-- The per-region body of grade_diamonds (lines 70-111): tilted regions
get grade None when orientation checking is on, every other region is
graded from its nearest-neighbor scan. -/
noncomputable def gradeOne (cfg : GraderConfig) (allRois : List GROI)
    (roi : GROI) : GradedDiamond :=
  let radius := radiusOf roi
  if cfg.checkOrientation = true ∧ roi.orientation = "tilted" then
    ⟨roi, none, none, radius⟩
  else
    let p := findNearestEdgeDistance cfg roi allRois
    ⟨roi, some (computeGrade radius p.2 p.1), some p.1, radius⟩

/-- PickupGrader.grade_diamonds (lines 58-113): one graded record per
region, in order. -/
noncomputable def gradeDiamonds (cfg : GraderConfig) (rois : List GROI) :
    List GradedDiamond :=
  rois.map (gradeOne cfg rois)

/-- C6: holding radius and threshold fixed, the grade is non-decreasing in
the edge distance, across all three regimes (below threshold, ramp, and
degenerate denominator). -/
theorem computeGrade_monotone (radius threshold d1 d2 : ℝ) (h : d1 ≤ d2) :
    computeGrade radius threshold d1 ≤ computeGrade radius threshold d2 := by
  unfold computeGrade
  dsimp only
  by_cases h1 : d1 < threshold
  · rw [if_pos h1]
    by_cases h2 : d2 < threshold
    · rw [if_pos h2]
    · rw [if_neg h2]
      have hge : (0 : ℝ) ≤ min 10 (max 0 ((d2 - threshold) /
          (6 * radius - threshold) * 10)) :=
        le_min (by norm_num) (le_max_left 0 _)
      linarith
  · rw [if_neg h1, if_neg (fun hc => h1 (lt_of_le_of_lt h hc))]
    have ht1 : threshold ≤ d1 := not_lt.mp h1
    rcases lt_trichotomy (6 * radius - threshold) 0 with hd | hd | hd
    · have e1 : (d1 - threshold) / (6 * radius - threshold) * 10 ≤ 0 := by
        have hq : (d1 - threshold) / (6 * radius - threshold) ≤ 0 :=
          div_nonpos_of_nonneg_of_nonpos (by linarith) (le_of_lt hd)
        nlinarith
      have e2 : (d2 - threshold) / (6 * radius - threshold) * 10 ≤ 0 := by
        have hq : (d2 - threshold) / (6 * radius - threshold) ≤ 0 :=
          div_nonpos_of_nonneg_of_nonpos (by linarith) (le_of_lt hd)
        nlinarith
      rw [max_eq_left e1, max_eq_left e2]
    · rw [hd]
      simp
    · have hr : (d1 - threshold) / (6 * radius - threshold) ≤
          (d2 - threshold) / (6 * radius - threshold) :=
        (div_le_div_iff_of_pos_right hd).mpr (by linarith)
      have hm : (d1 - threshold) / (6 * radius - threshold) * 10 ≤
          (d2 - threshold) / (6 * radius - threshold) * 10 := by linarith
      exact min_le_min le_rfl (max_le_max le_rfl hm)

/-- Witness for C6 at radius 20, threshold 10, distances 20 and 30. -/
theorem computeGrade_monotone_witness :
    (20 : ℝ) ≤ 30 ∧ computeGrade 20 10 20 ≤ computeGrade 20 10 30 :=
  ⟨by norm_num, computeGrade_monotone 20 10 20 30 (by norm_num)⟩

/-- When every listed region has the target's id, the scan fold never
updates its accumulator. -/
lemma foldl_scanStep_self (cfg : GraderConfig) (target : GROI) :
    ∀ (l : List GROI) (acc : Option ℝ × ℝ), (∀ r ∈ l, r.id = target.id) →
      l.foldl (scanStep cfg target) acc = acc := by
  intro l
  induction l with
  | nil => intro acc _; rfl
  | cons r t ih =>
    intro acc hall
    have hr : r.id = target.id := hall r (List.mem_cons_self r t)
    simp only [List.foldl_cons, scanStep, if_pos hr]
    exact ih acc fun x hx => hall x (List.mem_cons_of_mem r hx)

/-- C1 amended: a region with no other region in the image (every listed
region carries its own id) receives edge distance 0.0 from the scan, not
infinity, and — its safety threshold being positive — is graded Invalid
(-1), not 10. -/
theorem isolated_zero_and_invalid (cfg : GraderConfig) (roi : GROI) (l : List GROI)
    (hall : ∀ r ∈ l, r.id = roi.id) :
    findNearestEdgeDistance cfg roi l = (0, getSafetyThreshold cfg roi) ∧
      (0 < getSafetyThreshold cfg roi → roi.orientation ≠ "tilted" →
        gradeOne cfg l roi = ⟨roi, some (-1), some 0, radiusOf roi⟩) := by
  have hscan : findNearestEdgeDistance cfg roi l = (0, getSafetyThreshold cfg roi) := by
    unfold findNearestEdgeDistance
    rw [foldl_scanStep_self cfg roi l (none, getSafetyThreshold cfg roi) hall]
    rfl
  refine ⟨hscan, fun hpos hor => ?_⟩
  unfold gradeOne
  rw [if_neg (fun hc => hor hc.2)]
  rw [hscan]
  unfold computeGrade
  dsimp only
  rw [if_pos hpos]

/-- Square-area helper: the radius of a region with area r² π is r. -/
lemma sqrt_sq_pi_div_pi (r : ℝ) (hr : 0 ≤ r) :
    Real.sqrt (r ^ 2 * Real.pi / Real.pi) = r := by
  rw [mul_div_assoc, div_self Real.pi_ne_zero, mul_one, Real.sqrt_sq hr]

/-- Grader configuration with no mm conversion (fallback thresholds). -/
def cfgC1 : GraderConfig := ⟨true, none⟩

/-- A single isolated round table region of radius 10. -/
noncomputable def roiC1 : GROI := ⟨0, (50, 50), 10 ^ 2 * Real.pi, "table", "round"⟩

/-- Counterexample to C1 as stated: for an image containing only roiC1, the
nearest-neighbor scan returns edge distance 0.0 (the source replaces the
untouched infinite minimum by 0.0, line 178), and since 0 < safety
threshold (= radius = 10), the grader marks the region Invalid (-1).  The
claim predicted an infinite distance and grade 10. -/
theorem isolated_claim_false :
    (findNearestEdgeDistance cfgC1 roiC1 [roiC1]).1 = 0 ∧
      gradeOne cfgC1 [roiC1] roiC1 = ⟨roiC1, some (-1), some 0, radiusOf roiC1⟩ ∧
      some (-1 : ℝ) ≠ some (10 : ℝ) := by
  have hthr : getSafetyThreshold cfgC1 roiC1 = 10 := by
    show Real.sqrt ((10 : ℝ) ^ 2 * Real.pi / Real.pi) = 10
    exact sqrt_sq_pi_div_pi 10 (by norm_num)
  have hall : ∀ r ∈ [roiC1], r.id = roiC1.id := by
    intro r hr
    rw [List.mem_singleton.mp hr]
  have hscan : findNearestEdgeDistance cfgC1 roiC1 [roiC1] =
      (0, getSafetyThreshold cfgC1 roiC1) := by
    unfold findNearestEdgeDistance
    rw [foldl_scanStep_self cfgC1 roiC1 [roiC1] (none, getSafetyThreshold cfgC1 roiC1) hall]
    rfl
  refine ⟨by rw [hscan], ?_, by norm_num⟩
  unfold gradeOne
  rw [if_neg (by simp [cfgC1, roiC1])]
  rw [hscan, hthr]
  unfold computeGrade
  dsimp only
  rw [if_pos (by norm_num : (0 : ℝ) < 10)]

/-- Grader configuration with a fixed 5-pixel threshold for the C1 witness. -/
def cfgC1b : GraderConfig := ⟨true, some 5⟩

/-- An isolated non-round region used by the C1 witness. -/
noncomputable def roiC1b : GROI := ⟨3, (7, 8), 4 * Real.pi, "table", "other"⟩

/-- Witness for the amended C1 theorem at a concrete isolated region. -/
theorem isolated_zero_and_invalid_witness :
    (∀ r ∈ [roiC1b], r.id = roiC1b.id) ∧
      gradeOne cfgC1b [roiC1b] roiC1b = ⟨roiC1b, some (-1), some 0, radiusOf roiC1b⟩ := by
  have hall : ∀ r ∈ [roiC1b], r.id = roiC1b.id := by
    intro r hr
    rw [List.mem_singleton.mp hr]
  refine ⟨hall, (isolated_zero_and_invalid cfgC1b roiC1b [roiC1b] hall).2 ?_ ?_⟩
  · show (0 : ℝ) < 5
    norm_num
  · show "table" ≠ "tilted"
    decide

/-- The code's min/max clipped ramp equals the spec's clamp formulation
clamp(10·(d−t)/(6r−t), 0, 10). -/
lemma computeGrade_eq_clamp (r t d : ℝ) :
    computeGrade r t d =
      if d < t then -1 else min (max (10 * (d - t) / (6 * r - t)) 0) 10 := by
  unfold computeGrade
  dsimp only
  by_cases h : d < t
  · rw [if_pos h, if_pos h]
  · rw [if_neg h, if_neg h]
    have harith : (d - t) / (6 * r - t) * 10 = 10 * (d - t) / (6 * r - t) := by
      ring
    rw [harith, min_comm, max_comm]

/-- Grader configuration of the spec's worked example: plate 100 mm, 2 mm
clearance, image width 500 px, hence a fixed 10 px threshold. -/
noncomputable def cfgC2 : GraderConfig := ⟨true, mkMinDistancePx 100 2 (some 500)⟩

/-- Example region A: center (100, 100), radius 20. -/
noncomputable def roiT1 : GROI := ⟨0, (100, 100), 20 ^ 2 * Real.pi, "table", "round"⟩

/-- Example region B: center (160, 100), radius 20. -/
noncomputable def roiT2 : GROI := ⟨1, (160, 100), 20 ^ 2 * Real.pi, "table", "round"⟩

/-- C2: a non-tilted region is graded Invalid when its minimum edge
distance falls below the required threshold and by the clamped linear ramp
clamp(10·(d−t)/(6·radius−t), 0, 10) otherwise; and on the worked example
(centers (100,100) and (160,100), both radius 20, threshold 10 px) the edge
distance is 20 and both grades are 10/11 ≈ 0.91. -/
theorem grade_formula_and_example :
    (∀ (cfg : GraderConfig) (l : List GROI) (roi : GROI),
      roi.orientation ≠ "tilted" →
      gradeOne cfg l roi =
        ⟨roi,
          some (if (findNearestEdgeDistance cfg roi l).1 <
              (findNearestEdgeDistance cfg roi l).2 then -1
            else min (max (10 * ((findNearestEdgeDistance cfg roi l).1 -
                (findNearestEdgeDistance cfg roi l).2) /
                (6 * radiusOf roi - (findNearestEdgeDistance cfg roi l).2)) 0) 10),
          some (findNearestEdgeDistance cfg roi l).1, radiusOf roi⟩) ∧
    gradeDiamonds cfgC2 [roiT1, roiT2] =
      [⟨roiT1, some (10 / 11), some 20, 20⟩, ⟨roiT2, some (10 / 11), some 20, 20⟩] := by
  have hmd : cfgC2.minDistancePx = some 10 := by
    show mkMinDistancePx 100 2 (some 500) = some 10
    show some ((2 : ℝ) * (500 / 100)) = some 10
    norm_num
  have hthr1 : getSafetyThreshold cfgC2 roiT1 = 10 := by
    unfold getSafetyThreshold
    rw [hmd]
  have hthr2 : getSafetyThreshold cfgC2 roiT2 = 10 := by
    unfold getSafetyThreshold
    rw [hmd]
  have hrad1 : radiusOf roiT1 = 20 := by
    show Real.sqrt ((20 : ℝ) ^ 2 * Real.pi / Real.pi) = 20
    exact sqrt_sq_pi_div_pi 20 (by norm_num)
  have hrad2 : radiusOf roiT2 = 20 := by
    show Real.sqrt ((20 : ℝ) ^ 2 * Real.pi / Real.pi) = 20
    exact sqrt_sq_pi_div_pi 20 (by norm_num)
  have hed12 : edgeDistanceBetween roiT1 roiT2 = 20 := by
    unfold edgeDistanceBetween
    have hdist : centerDistance roiT1.center roiT2.center = 60 := by
      show Real.sqrt (((100 : ℝ) - 160) ^ 2 + ((100 : ℝ) - 100) ^ 2) = 60
      rw [show ((100 : ℝ) - 160) ^ 2 + ((100 : ℝ) - 100) ^ 2 = 60 ^ 2 by norm_num,
        Real.sqrt_sq (by norm_num)]
    rw [hdist, hrad1, hrad2]
    norm_num
  have hed21 : edgeDistanceBetween roiT2 roiT1 = 20 := by
    unfold edgeDistanceBetween
    have hdist : centerDistance roiT2.center roiT1.center = 60 := by
      show Real.sqrt (((160 : ℝ) - 100) ^ 2 + ((100 : ℝ) - 100) ^ 2) = 60
      rw [show ((160 : ℝ) - 100) ^ 2 + ((100 : ℝ) - 100) ^ 2 = 60 ^ 2 by norm_num,
        Real.sqrt_sq (by norm_num)]
    rw [hdist, hrad1, hrad2]
    norm_num
  have hgrade : computeGrade 20 10 20 = 10 / 11 := by
    unfold computeGrade
    rw [if_neg (by norm_num : ¬(20 : ℝ) < 10)]
    dsimp only
    rw [show ((20 : ℝ) - 10) / (6 * 20 - 10) * 10 = 10 / 11 by norm_num,
      max_eq_right (by norm_num : (0 : ℝ) ≤ 10 / 11),
      min_eq_right (by norm_num : (10 : ℝ) / 11 ≤ 10)]
  have hscan1 : findNearestEdgeDistance cfgC2 roiT1 [roiT1, roiT2] = (20, 10) := by
    unfold findNearestEdgeDistance
    simp only [List.foldl_cons, List.foldl_nil]
    rw [show scanStep cfgC2 roiT1 (none, getSafetyThreshold cfgC2 roiT1) roiT1 =
        (none, getSafetyThreshold cfgC2 roiT1) from by
      unfold scanStep
      rw [if_pos rfl]]
    rw [show scanStep cfgC2 roiT1 (none, getSafetyThreshold cfgC2 roiT1) roiT2 =
        (some (edgeDistanceBetween roiT1 roiT2),
          min (getSafetyThreshold cfgC2 roiT1) (getSafetyThreshold cfgC2 roiT2)) from by
      unfold scanStep
      rw [if_neg (by decide : ¬roiT2.id = roiT1.id)]]
    rw [hed12, hthr1, hthr2]
    norm_num
  have hscan2 : findNearestEdgeDistance cfgC2 roiT2 [roiT1, roiT2] = (20, 10) := by
    unfold findNearestEdgeDistance
    simp only [List.foldl_cons, List.foldl_nil]
    rw [show scanStep cfgC2 roiT2 (none, getSafetyThreshold cfgC2 roiT2) roiT1 =
        (some (edgeDistanceBetween roiT2 roiT1),
          min (getSafetyThreshold cfgC2 roiT2) (getSafetyThreshold cfgC2 roiT1)) from by
      unfold scanStep
      rw [if_neg (by decide : ¬roiT1.id = roiT2.id)]]
    rw [show scanStep cfgC2 roiT2
        (some (edgeDistanceBetween roiT2 roiT1),
          min (getSafetyThreshold cfgC2 roiT2) (getSafetyThreshold cfgC2 roiT1)) roiT2 =
        (some (edgeDistanceBetween roiT2 roiT1),
          min (getSafetyThreshold cfgC2 roiT2) (getSafetyThreshold cfgC2 roiT1)) from by
      unfold scanStep
      rw [if_pos rfl]]
    rw [hed21, hthr1, hthr2]
    norm_num
  constructor
  · intro cfg l roi hor
    unfold gradeOne
    rw [if_neg (fun hc => hor hc.2)]
    dsimp only
    rw [computeGrade_eq_clamp]
  · simp only [gradeDiamonds, List.map_cons, List.map_nil]
    have g1 : gradeOne cfgC2 [roiT1, roiT2] roiT1 = ⟨roiT1, some (10 / 11), some 20, 20⟩ := by
      unfold gradeOne
      rw [if_neg (by decide : ¬(cfgC2.checkOrientation = true ∧ roiT1.orientation = "tilted"))]
      dsimp only
      rw [hscan1, hrad1]
      dsimp only
      rw [hgrade]
    have g2 : gradeOne cfgC2 [roiT1, roiT2] roiT2 = ⟨roiT2, some (10 / 11), some 20, 20⟩ := by
      unfold gradeOne
      rw [if_neg (by decide : ¬(cfgC2.checkOrientation = true ∧ roiT2.orientation = "tilted"))]
      dsimp only
      rw [hscan2, hrad2]
      dsimp only
      rw [hgrade]
    rw [g1, g2]

/-- Witness for C2's formula part at a concrete region and list. -/
theorem grade_formula_witness :
    roiT1.orientation ≠ "tilted" ∧
      gradeOne cfgC2 [roiT1] roiT1 =
        ⟨roiT1,
          some (if (findNearestEdgeDistance cfgC2 roiT1 [roiT1]).1 <
              (findNearestEdgeDistance cfgC2 roiT1 [roiT1]).2 then -1
            else min (max (10 * ((findNearestEdgeDistance cfgC2 roiT1 [roiT1]).1 -
                (findNearestEdgeDistance cfgC2 roiT1 [roiT1]).2) /
                (6 * radiusOf roiT1 - (findNearestEdgeDistance cfgC2 roiT1 [roiT1]).2)) 0) 10),
          some (findNearestEdgeDistance cfgC2 roiT1 [roiT1]).1, radiusOf roiT1⟩ :=
  ⟨by decide, grade_formula_and_example.1 cfgC2 [roiT1] roiT1 (by decide)⟩

/-- Once the scan carries a finite minimum, folding further regions can
only keep or decrease it. -/
lemma foldl_scanStep_min_mono (cfg : GraderConfig) (target : GROI) :
    ∀ (l : List GROI) (acc : Option ℝ × ℝ) (m : ℝ), acc.1 = some m →
      ∃ mf, (l.foldl (scanStep cfg target) acc).1 = some mf ∧ mf ≤ m := by
  intro l
  induction l with
  | nil => intro acc m hm; exact ⟨m, hm, le_rfl⟩
  | cons r t ih =>
    intro acc m hm
    simp only [List.foldl_cons]
    by_cases hid : r.id = target.id
    · rw [show scanStep cfg target acc r = acc from by unfold scanStep; rw [if_pos hid]]
      exact ih acc m hm
    · have hstep : scanStep cfg target acc r =
          if edgeDistanceBetween target r < m then
            (some (edgeDistanceBetween target r),
              min (getSafetyThreshold cfg target) (getSafetyThreshold cfg r))
          else acc := by
        unfold scanStep
        rw [if_neg hid, hm]
      rw [hstep]
      by_cases hlt : edgeDistanceBetween target r < m
      · rw [if_pos hlt]
        obtain ⟨mf, hmf, hle⟩ := ih (some (edgeDistanceBetween target r),
          min (getSafetyThreshold cfg target) (getSafetyThreshold cfg r))
          (edgeDistanceBetween target r) rfl
        exact ⟨mf, hmf, hle.trans (le_of_lt hlt)⟩
      · rw [if_neg hlt]
        exact ih acc m hm

/-- Every region distinct from the target that appears in the scanned list,
tilted or not, bounds the scan's minimum by its own edge distance: it acts
as an obstacle. -/
lemma foldl_scanStep_le (cfg : GraderConfig) (target : GROI) :
    ∀ (l : List GROI) (acc : Option ℝ × ℝ) (b : GROI), b ∈ l → b.id ≠ target.id →
      ∃ mf, (l.foldl (scanStep cfg target) acc).1 = some mf ∧
        mf ≤ edgeDistanceBetween target b := by
  intro l
  induction l with
  | nil => intro acc b hb; exact fun _ => absurd hb (List.not_mem_nil b)
  | cons r t ih =>
    intro acc b hb hbid
    simp only [List.foldl_cons]
    rcases List.mem_cons.mp hb with heq | htail
    · subst heq
      rcases hacc : acc.1 with _ | m
      · have hstep : scanStep cfg target acc b =
            (some (edgeDistanceBetween target b),
              min (getSafetyThreshold cfg target) (getSafetyThreshold cfg b)) := by
          unfold scanStep
          rw [if_neg hbid, hacc]
        rw [hstep]
        exact foldl_scanStep_min_mono cfg target t _ _ rfl
      · have hstep : scanStep cfg target acc b =
            if edgeDistanceBetween target b < m then
              (some (edgeDistanceBetween target b),
                min (getSafetyThreshold cfg target) (getSafetyThreshold cfg b))
            else acc := by
          unfold scanStep
          rw [if_neg hbid, hacc]
        rw [hstep]
        by_cases hlt : edgeDistanceBetween target b < m
        · rw [if_pos hlt]
          exact foldl_scanStep_min_mono cfg target t _ _ rfl
        · rw [if_neg hlt]
          obtain ⟨mf, hmf, hle⟩ := foldl_scanStep_min_mono cfg target t acc m hacc
          exact ⟨mf, hmf, hle.trans (not_lt.mp hlt)⟩
    · exact ih (scanStep cfg target acc r) b htail hbid

/-- C5: with orientation checking enabled, a tilted region is graded
None (NotApplicable) regardless of any neighbor distance, while every
region, tilted ones included, still bounds any other region's
nearest-neighbor scan as a physical obstacle. -/
theorem tilted_grade_and_obstacle (cfg : GraderConfig) (rois : List GROI) :
    (∀ (i : ℕ) (roi : GROI), cfg.checkOrientation = true → rois[i]? = some roi →
      roi.orientation = "tilted" →
      (gradeDiamonds cfg rois)[i]? = some ⟨roi, none, none, radiusOf roi⟩) ∧
    (∀ target b : GROI, b ∈ rois → b.id ≠ target.id →
      (findNearestEdgeDistance cfg target rois).1 ≤ edgeDistanceBetween target b) := by
  constructor
  · intro i roi hcfg hi htl
    unfold gradeDiamonds
    rw [List.getElem?_map, hi]
    show some (gradeOne cfg rois roi) = _
    congr 1
    unfold gradeOne
    rw [if_pos ⟨hcfg, htl⟩]
  · intro target b hb hbid
    unfold findNearestEdgeDistance
    obtain ⟨mf, hmf, hle⟩ := foldl_scanStep_le cfg target rois
      (none, getSafetyThreshold cfg target) b hb hbid
    dsimp only
    rw [hmf]
    exact hle

/-- Grader configuration for the C5 witness. -/
def cfgC5 : GraderConfig := ⟨true, none⟩

/-- A tilted region for the C5 witness. -/
noncomputable def roiC5 : GROI := ⟨0, (0, 0), Real.pi, "tilted", "other"⟩

/-- Witness for C5 at a concrete tilted region. -/
theorem tilted_grade_witness :
    cfgC5.checkOrientation = true ∧ ([roiC5])[0]? = some roiC5 ∧
      roiC5.orientation = "tilted" ∧
      (gradeDiamonds cfgC5 [roiC5])[0]? = some ⟨roiC5, none, none, radiusOf roiC5⟩ :=
  ⟨rfl, rfl, rfl, (tilted_grade_and_obstacle cfgC5 [roiC5]).1 0 roiC5 rfl rfl rfl⟩

/-! ## Mirror-symmetry measurement cores
Embedding of the pixel-comparison cores of
ShapeBasedSymmetryDetector.compute_mirror_symmetry
(src/classification/shape_based_symmetry.py, lines 222-288) and
PureGeometricClassifier._analyze_reflection_symmetry
(src/classification/pure_geometric_classifier.py, lines 255-294).
The cv2 rotation/split/flip steps produce, for each pixel position valid on
both sides, a pair of brightness values; the embedded cores consume that
list of pairs.  np.std is the population standard deviation; np.corrcoef of
the two sequences is undefined (NaN, 0/0) exactly when either variance is
zero, modelled as Option.none.  The source's pre-normalization by
(std + 1e-8) leaves the Pearson correlation unchanged (it is invariant
under positive affine rescaling, and the rescaled sequence has zero
variance exactly when the original does), so corrcoef applies to the raw
pairs. -/

/-- Mean of a list of reals (np.mean); 0 for the empty list (0/0). -/
noncomputable def meanOf (l : List ℝ) : ℝ := l.sum / (l.length : ℝ)

/-- Population variance (the square of np.std). -/
noncomputable def varOf (l : List ℝ) : ℝ :=
  ((l.map fun x => (x - meanOf l) ^ 2).sum) / (l.length : ℝ)

/-- Population standard deviation (np.std). -/
noncomputable def stdOf (l : List ℝ) : ℝ := Real.sqrt (varOf l)

/-- Population covariance of the paired samples. -/
noncomputable def covOf (pairs : List (ℝ × ℝ)) : ℝ :=
  ((pairs.map fun p => (p.1 - meanOf (pairs.map Prod.fst)) *
    (p.2 - meanOf (pairs.map Prod.snd))).sum) / (pairs.length : ℝ)

/-- np.corrcoef of the two pixel sequences: Pearson correlation, undefined
(NaN in NumPy, none here) when either standard deviation is zero. -/
noncomputable def corrcoef (pairs : List (ℝ × ℝ)) : Option ℝ :=
  if stdOf (pairs.map Prod.fst) = 0 ∨ stdOf (pairs.map Prod.snd) = 0 then none
  else some (covOf pairs / (stdOf (pairs.map Prod.fst) * stdOf (pairs.map Prod.snd)))

/-- The comparison core of compute_mirror_symmetry (shape_based_symmetry.py
lines 261-288): fewer than 10 valid pixels give 0, fewer than 2 give 0;
otherwise the correlation is computed unconditionally — there is no
zero-variance or NaN guard in this function — then mapped to [0,1],
combined 0.7/0.3 with the brightness-similarity term and clipped.  A NaN
correlation (none) propagates to the result. -/
noncomputable def mirrorSymmetryCore (pairs : List (ℝ × ℝ)) : Option ℝ :=
  if pairs.length < 10 then some 0
  else if pairs.length < 2 then some 0
  else
    match corrcoef pairs with
    | none => none
    | some correlation =>
      let symmetry := (correlation + 1) / 2
      let brightnessSimilarity :=
        1 - |meanOf (pairs.map Prod.fst) - meanOf (pairs.map Prod.snd)| / 255
      some (min (max (0.7 * symmetry + 0.3 * brightnessSimilarity) 0) 1)

/-- The comparison core of _analyze_reflection_symmetry
(pure_geometric_classifier.py lines 255-294): the same valid-pixel guards,
then the explicit near-zero-std branch (lines 270-274) returning the
brightness-difference score, the NaN fallback on the correlation (lines
282-285) mapping to 1 − 2·brightness_diff, and the clipped (corr+1)/2
score. -/
noncomputable def reflectionSymmetryCore (pairs : List (ℝ × ℝ)) : ℝ :=
  if pairs.length < 10 then 0
  else if pairs.length < 2 then 0
  else
    let leftStd := stdOf (pairs.map Prod.fst)
    let rightStd := stdOf (pairs.map Prod.snd)
    let brightnessDiff :=
      |meanOf (pairs.map Prod.fst) - meanOf (pairs.map Prod.snd)| / 255
    if leftStd < 1e-6 ∨ rightStd < 1e-6 then
      min (max (1 - brightnessDiff) 0) 1
    else
      let correlation :=
        match corrcoef pairs with
        | none => 1 - 2 * brightnessDiff
        | some c => c
      min (max ((correlation + 1) / 2) 0) 1

/-- The comparison core of _measure_spot_symmetry
(pure_geometric_classifier.py lines 437-473): fewer than 10 valid pixels
give 0, otherwise the binary match ratio over the valid pixels.  The
moment-degenerate guard (line 442) also returns 0 upstream. -/
def spotSymmetryCore (pairs : List (ℚ × ℚ)) : ℚ :=
  if pairs.length < 10 then 0
  else if 0 < pairs.length then
    (((pairs.filter fun p => p.1 = p.2).length : ℚ)) / ((pairs.length : ℚ))
  else 0

/-- Circularity of analyze_symmetry (shape_based_symmetry.py lines
604-610): 4π·area/perimeter² guarded by perimeter > 0, then capped at 1. -/
noncomputable def circularityOf (area perimeter : ℝ) : ℝ :=
  let c := if perimeter > 0 then 4 * Real.pi * area / perimeter ^ 2 else 0
  min c 1

/-- The variance of a constant sample is zero. -/
lemma varOf_replicate (n : ℕ) (c : ℝ) : varOf (List.replicate n c) = 0 := by
  rcases Nat.eq_zero_or_pos n with h0 | hp
  · subst h0
    simp [varOf, meanOf]
  · have hmean : meanOf (List.replicate n c) = c := by
      unfold meanOf
      rw [List.sum_replicate, List.length_replicate, nsmul_eq_mul, mul_comm,
        mul_div_assoc, div_self (Nat.cast_ne_zero.mpr hp.ne'), mul_one]
    unfold varOf
    rw [hmean, List.map_replicate, List.length_replicate]
    simp

/-- The standard deviation of a constant sample is zero. -/
lemma stdOf_replicate (n : ℕ) (c : ℝ) : stdOf (List.replicate n c) = 0 := by
  unfold stdOf
  rw [varOf_replicate, Real.sqrt_zero]

/-- np.corrcoef is undefined on constant samples. -/
lemma corrcoef_replicate (n : ℕ) (a b : ℝ) :
    corrcoef (List.replicate n (a, b)) = none := by
  unfold corrcoef
  rw [List.map_replicate]
  exact if_pos (Or.inl (stdOf_replicate n (a, b).1))

/-- The mirror-symmetry core is undefined (NaN) on any uniform valid region
of at least 10 pixels. -/
lemma mirrorSymmetryCore_replicate (n : ℕ) (a b : ℝ) (hn : ¬n < 10) :
    mirrorSymmetryCore (List.replicate n (a, b)) = none := by
  unfold mirrorSymmetryCore
  rw [List.length_replicate, if_neg hn, if_neg (by omega), corrcoef_replicate]

/-- C3: on a uniform valid region of 10 pixels of brightness 100, the
reflection-symmetry measurement takes its explicit near-zero-std branch and
returns the deterministic brightness-difference score 1, while the
mirror-symmetry primitive of compute_mirror_symmetry computes the
correlation unconditionally and yields an undefined (NaN) result — the
required explicit fallback branch is missing there. -/
theorem mirror_fallback_missing :
    reflectionSymmetryCore (List.replicate 10 ((100 : ℝ), (100 : ℝ))) = 1 ∧
      mirrorSymmetryCore (List.replicate 10 ((100 : ℝ), (100 : ℝ))) = none := by
  constructor
  · unfold reflectionSymmetryCore
    rw [List.length_replicate, if_neg (by norm_num), if_neg (by norm_num)]
    dsimp only
    rw [List.map_replicate, List.map_replicate]
    rw [if_pos (Or.inl (by rw [stdOf_replicate]; norm_num))]
    rw [sub_self, abs_zero]
    norm_num
  · exact mirrorSymmetryCore_replicate 10 100 100 (by norm_num)

/-- C9: reflection symmetry, spot symmetry, aspect ratio (for nonnegative
fitted axes) and circularity (for nonnegative area) all lie in [0, 1], and
so does the mirror-symmetry score whenever it is defined — but the
mirror-symmetry measurement itself, which supplies the outline-symmetry
score, is undefined (NaN) on a uniform 12-pixel region, so the outline
symmetry escapes [0, 1] there and the claim fails as stated. -/
theorem scores_unit_interval_except_outline :
    (∀ pairs : List (ℝ × ℝ),
      0 ≤ reflectionSymmetryCore pairs ∧ reflectionSymmetryCore pairs ≤ 1) ∧
    (∀ pairs : List (ℚ × ℚ),
      0 ≤ spotSymmetryCore pairs ∧ spotSymmetryCore pairs ≤ 1) ∧
    (∀ axes : ℚ × ℚ, 0 ≤ axes.1 → 0 ≤ axes.2 →
      0 ≤ aspectRatioOfAxes axes ∧ aspectRatioOfAxes axes ≤ 1) ∧
    (∀ area perimeter : ℝ, 0 ≤ area →
      0 ≤ circularityOf area perimeter ∧ circularityOf area perimeter ≤ 1) ∧
    (∀ (pairs : List (ℝ × ℝ)) (s : ℝ), mirrorSymmetryCore pairs = some s →
      0 ≤ s ∧ s ≤ 1) ∧
    mirrorSymmetryCore (List.replicate 12 ((50 : ℝ), (50 : ℝ))) = none := by
  refine ⟨?_, ?_, ?_, ?_, ?_, ?_⟩
  · intro pairs
    unfold reflectionSymmetryCore
    split_ifs with h1 h2
    · exact ⟨le_rfl, by norm_num⟩
    · exact ⟨le_rfl, by norm_num⟩
    · dsimp only
      refine ⟨?_, ?_⟩ <;> split_ifs <;>
        first
          | exact le_min (le_max_right _ _) (by norm_num)
          | exact min_le_right _ _
  · intro pairs
    unfold spotSymmetryCore
    split_ifs with h1 h2
    · exact ⟨le_rfl, by norm_num⟩
    · constructor
      · exact div_nonneg (by positivity) (by positivity)
      · rw [div_le_one (by exact_mod_cast h2)]
        exact_mod_cast List.length_filter_le _ _
    · exact ⟨le_rfl, by norm_num⟩
  · intro axes h1 h2
    unfold aspectRatioOfAxes
    dsimp only
    split_ifs with hpos
    · constructor
      · exact div_nonneg (le_min h1 h2) (le_of_lt hpos)
      · rw [div_le_one hpos]
        exact min_le_max
    · exact ⟨le_rfl, by norm_num⟩
  · intro area perimeter harea
    unfold circularityOf
    dsimp only
    have hc : 0 ≤ if perimeter > 0 then 4 * Real.pi * area / perimeter ^ 2 else 0 := by
      split_ifs with hp
      · positivity
      · exact le_rfl
    exact ⟨le_min hc (by norm_num), min_le_right _ _⟩
  · intro pairs s h
    unfold mirrorSymmetryCore at h
    split_ifs at h
    · obtain rfl : (0 : ℝ) = s := Option.some.inj h
      exact ⟨le_rfl, by norm_num⟩
    · obtain rfl : (0 : ℝ) = s := Option.some.inj h
      exact ⟨le_rfl, by norm_num⟩
    · rcases hc : corrcoef pairs with _ | c
      · rw [hc] at h
        exact absurd h (by simp)
      · rw [hc] at h
        obtain rfl := Option.some.inj h
        exact ⟨le_min (le_max_right _ _) (by norm_num), min_le_right _ _⟩
  · exact mirrorSymmetryCore_replicate 12 50 50 (by norm_num)

/-- Witness for C9's hypothesis-bearing parts at concrete inputs: axes
(4, 3), a region of area 2 and perimeter 5, and the defined mirror score of
the short pixel list. -/
theorem scores_unit_interval_witness :
    ((0 : ℚ) ≤ 4 ∧ (0 : ℚ) ≤ 3 ∧
      0 ≤ aspectRatioOfAxes ((4 : ℚ), (3 : ℚ)) ∧
      aspectRatioOfAxes ((4 : ℚ), (3 : ℚ)) ≤ 1) ∧
    ((0 : ℝ) ≤ 2 ∧ 0 ≤ circularityOf 2 5 ∧ circularityOf 2 5 ≤ 1) ∧
    (mirrorSymmetryCore ([] : List (ℝ × ℝ)) = some 0 ∧ (0 : ℝ) ≤ 0 ∧ (0 : ℝ) ≤ 1) := by
  have hasp := scores_unit_interval_except_outline.2.2.1 ((4 : ℚ), (3 : ℚ))
    (by norm_num) (by norm_num)
  have hcirc := scores_unit_interval_except_outline.2.2.2.1 2 5 (by norm_num)
  have hsome : mirrorSymmetryCore ([] : List (ℝ × ℝ)) = some 0 := by
    unfold mirrorSymmetryCore
    rw [if_pos (by norm_num : ([] : List (ℝ × ℝ)).length < 10)]
  have hmir := scores_unit_interval_except_outline.2.2.2.2.1 [] 0 hsome
  exact ⟨⟨by norm_num, by norm_num, hasp.1, hasp.2⟩,
    ⟨by norm_num, hcirc.1, hcirc.2⟩, ⟨hsome, hmir.1, hmir.2⟩⟩
